import Mathlib

/-!
Verification of the steamvdf binary VDF decoder.

This file shallowly embeds the decoder of the steamvdf repository
(`src/helper.ts`, `src/index.ts`, `src/types.ts`) in Lean 4 and settles the
frozen claims about its specification.

Modelling conventions:

* The Node.js `Readable` stream created by `Vdf._createStreamFromBuffer`
  pushes the whole buffer and then end-of-stream before any read happens, so
  for every call `stream.read(n)` the stream is already ended.  Per Node
  semantics, `read(n)` on an ended stream returns `null` when no unread bytes
  remain, and otherwise the next `min(n, remaining)` bytes.  We therefore
  model the stream as the list of unread bytes (`List Nat`, each element a
  byte, i.e. `< 256`), and a read returns the bytes obtained plus the list of
  bytes still unread.
* JavaScript bitwise operators (`|`, `<<`) coerce their operands with
  `ToInt32`/`ToUint32`, take the shift count modulo 32, and produce a signed
  32-bit result.  These are modelled exactly by `toU32`, `toI32`, `jsShl`
  and `jsOr` below on `Int`.
* A thrown JavaScript exception is modelled as `Option.none` / `Except.error`;
  code that cannot throw keeps a plain return type.
* The recursive node/entry loops are given an explicit fuel parameter so all
  definitions are structurally recursive and kernel-computable; fuel
  exhaustion yields `none` and never occurs on the inputs of the concrete
  theorems below.
-/

/-- The unsigned 32-bit pattern of a JS number that is an integer
(ECMAScript ToUint32). -/
def toU32 (x : Int) : Nat := (x % 4294967296).toNat

/-- ECMAScript ToInt32: the signed-32-bit (two's complement) reading of the
low 32 bits of an integer. -/
def toI32 (x : Int) : Int :=
  let r := x % 4294967296
  if r < 2147483648 then r else r - 4294967296

/-- JavaScript `a << s` on integer operands: shift count modulo 32, result
coerced to a signed 32-bit integer. -/
def jsShl (a : Int) (s : Nat) : Int := toI32 ((toU32 a * 2 ^ (s % 32) : Nat) : Int)

/-- JavaScript `a | b` on integer operands: bitwise or of the 32-bit
patterns, result coerced to a signed 32-bit integer. -/
def jsOr (a b : Int) : Int := toI32 ((toU32 a ||| toU32 b : Nat) : Int)

/-- One `stream.read(n)` step on the (already-ended) stream: `null` when no
unread byte remains, otherwise the next `min(n, remaining)` bytes.  Returns
the bytes delivered (`none` = `null`) and the bytes still unread. -/
def streamRead (l : List Nat) (n : Nat) : Option (List Nat) × List Nat :=
  if l = [] then (none, []) else (some (l.take n), l.drop n)

/-- The accumulation loop of `parseNumber`
(`for (let i = 1; i < bytes; i++) number |= buffer[i] << (i * 8)`).
`rem` counts the remaining iterations (`bytes - i`); `buffer.getD i 0`
renders `buffer[i]`, whose JS value `undefined` beyond the end of `buffer`
is coerced to `0` by the shift. -/
def jsNumAux (buffer : List Nat) : Nat → Nat → Int → Int
  | 0, _, number => number
  | rem + 1, i, number =>
      jsNumAux buffer rem (i + 1) (jsOr number (jsShl ((buffer.getD i 0 : Nat) : Int) (i * 8)))

/-- Embeds `parseNumber` of `src/helper.ts`: reads `length / 8` bytes and
composes them with JS `|` and `<<`; a `null` read is replaced by
`Buffer.from([0])`.  It never throws. -/
def parseNumber (l : List Nat) (length : Nat := 32) : Int × List Nat :=
  let bytes := length / 8
  let p := streamRead l bytes
  let buffer := p.1.getD [0]
  (jsNumAux buffer (bytes - 1) 1 ((buffer.getD 0 0 : Nat) : Int), p.2)

/-- Embeds `parseString` of `src/helper.ts`: reads one byte at a time until a
zero byte (consumed, not appended).  `stream.read(1)` at end of input returns
`null`, and `null[0]` throws (`none`). -/
def parseString : List Nat → Option (String × List Nat)
  | [] => none
  | c :: rest =>
      if c = 0 then some ("", rest)
      else
        match parseString rest with
        | none => none
        | some (s, l2) => some (⟨Char.ofNat c :: s.data⟩, l2)

/-- JavaScript `Number.prototype.toString(16)` for a non-negative integer:
minimal-length lowercase hexadecimal, with no zero padding. -/
def jsToString16 (n : Nat) : String := ⟨Nat.toDigits 16 n⟩

/-- The accumulation loop of `parseRawBytes`
(`for (let i = 0; i < bytes; i++) string += buffer[i].toString(16)`).
`rem` counts the remaining iterations; when `i` is past the end of `buffer`,
`buffer[i]` is `undefined` and `undefined.toString(16)` throws (`none`). -/
def rawHexAux (buffer : List Nat) : Nat → Nat → String → Option String
  | 0, _, acc => some acc
  | rem + 1, i, acc =>
      match buffer.get? i with
      | none => none
      | some b => rawHexAux buffer rem (i + 1) (acc ++ jsToString16 b)

/-- Embeds `parseRawBytes` of `src/helper.ts`: reads `length / 8` bytes (a
`null` read replaced by `Buffer.from([0])`) and concatenates
`buffer[i].toString(16)` over them. -/
def parseRawBytes (l : List Nat) (length : Nat := 32) : Option (String × List Nat) :=
  let bytes := length / 8
  let p := streamRead l bytes
  let buffer := p.1.getD [0]
  match rawHexAux buffer bytes 0 "" with
  | none => none
  | some s => some (s, p.2)

/-- The stored `_value` of a `VdfNode` (`VdfNodeData` of `src/types.ts`):
`undefined`, a string, or a number. -/
inductive NodeVal where
  | undef
  | str (s : String)
  | int (n : Int)
deriving DecidableEq

/-- A decoded node (`VdfNode` of `src/index.ts`): type tag, name (unset for
terminator nodes), stored value, children counter and children array.
`VdfTypes`: None/Map = 0, String = 1, Int/Int32 = 2, Float = 3, Ptr = 4,
Wstring = 5, Color = 6, Uint64 = 7, Numtypes/End = 8. -/
inductive VdfNode where
  | mk (type : Int) (name : Option String) (val : NodeVal) (count : Int)
      (children : List VdfNode)

/-- Node type tag (`_type` / getter `type`). -/
def VdfNode.type : VdfNode → Int
  | .mk t _ _ _ _ => t

/-- Node name (`_name` / getter `name`); `none` models `undefined`. -/
def VdfNode.name : VdfNode → Option String
  | .mk _ nm _ _ _ => nm

/-- Stored node value (`_value`). -/
def VdfNode.val : VdfNode → NodeVal
  | .mk _ _ v _ _ => v

/-- Children counter (`_childrenCount` / getter `count`). -/
def VdfNode.count : VdfNode → Int
  | .mk _ _ _ c _ => c

/-- Children array (`_children` / getter `children`). -/
def VdfNode.children : VdfNode → List VdfNode
  | .mk _ _ _ _ cs => cs

/-- Externalized JSON values (`VdfNodeJson` of `src/types.ts`): a scalar or
an object, the object kept as its insertion-ordered key/value list. -/
inductive Json where
  | undef
  | str (s : String)
  | num (n : Int)
  | obj (fields : List (String × Json))

/-- A JS property key: `object[k]` coerces the key to a string, so an
`undefined` node name becomes the key `"undefined"`. -/
def jsKey : Option String → String
  | some s => s
  | none => "undefined"

/-- JS property assignment `object[k] = v` on an insertion-ordered object:
an existing key keeps its position and gets the new value, a fresh key is
appended. -/
def jsObjSet (o : List (String × Json)) (k : String) (v : Json) :
    List (String × Json) :=
  if (o.map Prod.fst).contains k then
    o.map fun p => if p.1 = k then (k, v) else p
  else o ++ [(k, v)]

mutual

/-- Embeds the `value` getter of `VdfNode`: a non-map node externalizes to
its stored `_value`; a map node externalizes to the object built by
`object[child.name] = child.value` over its children in order. -/
def VdfNode.value : VdfNode → Json
  | .mk t _ v _ children =>
      if t ≠ 0 then
        match v with
        | .undef => .undef
        | .str s => .str s
        | .int n => .num n
      else .obj (VdfNode.valueFold [] children)

/-- The `forEach` loop `object[child.name] = child.value` over a child list,
starting from the object `o`. -/
def VdfNode.valueFold (o : List (String × Json)) : List VdfNode → List (String × Json)
  | [] => o
  | c :: cs => VdfNode.valueFold (jsObjSet o (jsKey c.name) c.value) cs

end

mutual

/-- Embeds the `VdfNode` constructor together with `_parseType`, `_parseName`
and `_parseValue`: read the 8-bit type tag; unless it is `End` (8), read the
null-terminated name and then dispatch on the tag (`Map` = 0 recurses into
children, `String` = 1 reads a string, `Int32` = 2 reads a 32-bit number, any
other tag reads no value bytes).  `none` models a thrown exception; fuel
exhaustion also yields `none` and is never hit in the theorems below. -/
def parseVdfNode : Nat → List Nat → Option (VdfNode × List Nat)
  | 0, _ => none
  | fuel + 1, l =>
      let p := parseNumber l 8
      let t := p.1
      if t = 8 then some (.mk t none .undef 0 [], p.2)
      else
        match parseString p.2 with
        | none => none
        | some (name, l2) =>
            if t = 0 then
              match parseVdfChildren fuel l2 0 [] with
              | none => none
              | some (cnt, cs, l3) => some (.mk t (some name) .undef cnt cs, l3)
            else if t = 1 then
              match parseString l2 with
              | none => none
              | some (sv, l3) => some (.mk t (some name) (.str sv) 0 [], l3)
            else if t = 2 then
              let q := parseNumber l2 32
              some (.mk t (some name) (.int q.1) 0 [], q.2)
            else some (.mk t (some name) .undef 0 [], l2)

/-- Embeds the child loop shared by `VdfNode._parseValue` (map case) and
`VdfGame._parseBody`: `childrenCount++; children.push(new VdfNode(stream))`
repeated while the node just pushed is not an `End` node, then
`childrenCount--; children.pop()`.  Returns the final counter, the final
children array and the unread rest. -/
def parseVdfChildren : Nat → List Nat → Int → List VdfNode →
    Option (Int × List VdfNode × List Nat)
  | 0, _, _, _ => none
  | fuel + 1, l, count, acc =>
      match parseVdfNode fuel l with
      | none => none
      | some (n, l2) =>
          let count1 := count + 1
          let acc1 := acc ++ [n]
          if n.type ≠ 8 then parseVdfChildren fuel l2 count1 acc1
          else some (count1 - 1, acc1.dropLast, l2)

end

/-- A decoded entry (`VdfGame` of `src/index.ts`): the seven fixed header
fields followed by the children counter and children array filled in by
`_parseBody`. -/
structure VdfGame where
  appId : Int
  dataSize : Int
  infoState : Int
  lastUpdated : Int
  accessToken : Int
  sha : String
  changeNumber : Int
  count : Int
  children : List VdfNode

/-- Embeds the `VdfGame` constructor: `_parseHeader` (appId 32, dataSize 32,
infoState 32, lastUpdated 32, accessToken 64, sha 160 as raw hex,
changeNumber 32) followed by `_parseBody` (the node loop).  `none` models a
thrown exception. -/
def parseVdfGame (fuel : Nat) (l : List Nat) : Option (VdfGame × List Nat) :=
  let p1 := parseNumber l 32
  let p2 := parseNumber p1.2 32
  let p3 := parseNumber p2.2 32
  let p4 := parseNumber p3.2 32
  let p5 := parseNumber p4.2 64
  match parseRawBytes p5.2 160 with
  | none => none
  | some (sha, l6) =>
      let p7 := parseNumber l6 32
      match parseVdfChildren fuel p7.2 0 [] with
      | none => none
      | some (cnt, cs, l8) =>
          some (⟨p1.1, p2.1, p3.1, p4.1, p5.1, sha, p7.1, cnt, cs⟩, l8)

/-- Embeds the `json()` method of `VdfGame`: an object literal with the five
uncommented header fields (`accessToken` and `sha` are commented out in the
source) followed by `object[child.name] = child.value` over the children. -/
def VdfGame.json (g : VdfGame) : List (String × Json) :=
  VdfNode.valueFold
    [("appId", .num g.appId), ("dataSize", .num g.dataSize),
     ("infoState", .num g.infoState), ("lastUpdated", .num g.lastUpdated),
     ("changeNumber", .num g.changeNumber)]
    g.children

/-- The errors thrown by `Vdf._parseHeader`. -/
inductive VdfError where
  | invalidSignature (sign : Int)
  | invalidVersion
deriving DecidableEq

/-- Modelled from the spec: `src/config.ts` (`VdfFileTypes`, `VdfVersions`)
is not under `src/`.  The single accepted signature constant is documented in
`src/types.ts` as "always 123094055 for appinfo.vdf"; the accepted version
set is only described as a fixed small set, so the `Vdf` parser below takes
it as an explicit parameter. -/
def VdfFileTypes_APPINFO : Int := 123094055

/-- A decoded document (`Vdf` of `src/index.ts`). -/
structure Vdf where
  sign : Int
  version : Int
  count : Int
  children : List VdfGame

/-- Embeds `Vdf._parseBody`: `try { while (true) { childrenCount++;
children.push(new VdfGame(stream)) } } catch { childrenCount--;
children.pop() }`.  Note that when a `VdfGame` constructor throws, nothing
was pushed for it, yet the catch still pops the array. -/
def vdfParseBody : Nat → List Nat → Int → List VdfGame → Int × List VdfGame
  | 0, _, count, acc => (count, acc)
  | fuel + 1, l, count, acc =>
      let count1 := count + 1
      match parseVdfGame fuel l with
      | none => (count1 - 1, acc.dropLast)
      | some (g, l2) => vdfParseBody fuel l2 count1 (acc ++ [g])

/-- Embeds the `Vdf` constructor: `_parseHeader` (signature then version,
each a 32-bit read, validated against `_vdfFileTypes` and `vdfVersions`)
followed by `_parseBody`.  The two header errors surface; everything thrown
inside the body loop is absorbed by its catch. -/
def Vdf.parse (vdfVersions : List Int) (buffer : List Nat) : Except VdfError Vdf :=
  let p := parseNumber buffer 32
  if ([VdfFileTypes_APPINFO].contains p.1) = false then
    .error (.invalidSignature p.1)
  else
    let q := parseNumber p.2 32
    if (vdfVersions.contains q.1) = false then .error .invalidVersion
    else
      let r := vdfParseBody (2 * buffer.length + 2) q.2 0 []
      .ok ⟨p.1, q.1, r.1, r.2⟩

/-- The externalized document (`VdfJson` of `src/types.ts`). -/
structure VdfJson where
  sign : Int
  version : Int
  count : Int
  games : List (List (String × Json))

/-- Embeds `Vdf.jsonSync` (and the synchronously-resolving `Vdf.json`):
signature, version, children counter, and `json()` of every child. -/
def Vdf.jsonSync (v : Vdf) : VdfJson :=
  ⟨v.sign, v.version, v.count, v.children.map VdfGame.json⟩

/-- The 52 bytes of one complete well-formed entry: the 48 fixed header
bytes (appId 1, dataSize 0, infoState 0, lastUpdated 0, accessToken 0, a
20-byte digest of `0x11` bytes, changeNumber 0) followed by a body holding
one root map node with empty name and no children (`00 00 08`) and the
entry-terminating `End` node (`08`). -/
def oneEntryBytes : List Nat :=
  [1, 0, 0, 0] ++ [0, 0, 0, 0] ++ [0, 0, 0, 0] ++ [0, 0, 0, 0] ++
  [0, 0, 0, 0, 0, 0, 0, 0] ++ List.replicate 20 17 ++ [0, 0, 0, 0] ++
  [0, 0, 8, 8]

/-- A document buffer: valid signature (123094055, little-endian
`27 44 56 07`), version 1, then exactly `oneEntryBytes` and zero trailing
bytes. -/
def oneEntryDoc : List Nat := [39, 68, 86, 7] ++ [1, 0, 0, 0] ++ oneEntryBytes

/-- The entry that `oneEntryBytes` encodes. -/
def oneEntryGame : VdfGame :=
  ⟨1, 0, 0, 0, 0, "1111111111111111111111111111111111111111", 0, 1,
   [.mk 0 (some "") .undef 0 []]⟩

/-- Little-endian composition of a byte list into an unsigned integer; this
is the specification-side reading of a fixed-width field ("reads widthBits/8
bytes in little-endian order, composes them into an unsigned integer"). -/
def leBytes : List Nat → Nat
  | [] => 0
  | b :: bs => b + 256 * leBytes bs

theorem toU32_natCast {n : Nat} (h : n < 4294967296) : toU32 (n : Int) = n := by
  have h1 : ((n : Int) % 4294967296) = (n : Int) :=
    Int.emod_eq_of_lt (by positivity) (by exact_mod_cast h)
  simp [toU32, h1]

theorem toU32_toI32 (x : Int) : toU32 (toI32 x) = toU32 x := by
  simp only [toI32, toU32]
  split
  · rw [Int.emod_emod]
  · rw [show x % 4294967296 - 4294967296 = x % 4294967296 + -1 * 4294967296 by ring,
      Int.add_mul_emod_self, Int.emod_emod]

theorem toI32_natCast_small {n : Nat} (h : n < 2147483648) : toI32 (n : Int) = n := by
  have h32 : n < 4294967296 := by omega
  have : ((n : Int) % 4294967296) = (n : Int) :=
    Int.emod_eq_of_lt (by positivity) (by exact_mod_cast h32)
  simp only [toI32, this]
  rw [if_pos (by exact_mod_cast h)]

theorem jsOr_pattern {p q : Nat} (hp : p < 4294967296) (hq : q < 4294967296) :
    jsOr (toI32 (p : Int)) (toI32 (q : Int)) = toI32 ((p ||| q : Nat) : Int) := by
  simp only [jsOr, toU32_toI32, toU32_natCast hp, toU32_natCast hq]

/-- Bitwise or of values occupying disjoint bit ranges is addition. -/
theorem lor_mul_add {k m : Nat} (a b : Nat) (hm : 2 ^ k = m) (h : a < m) :
    a ||| b * m = a + b * m := by
  subst hm
  rw [Nat.mul_comm b (2 ^ k), Nat.lor_comm, ← Nat.mul_add_lt_is_or h, Nat.add_comm]

/-- One `number |= buffer[i] << (i * 8)` step, on a byte `b` whose shifted
pattern `b * m` fits in 32 bits. -/
theorem jsOr_step {p : Nat} (b s m : Nat) (hp : p < 4294967296)
    (hm : 2 ^ (s % 32) = m) (hbm : b * m < 4294967296) :
    jsOr (toI32 (p : Int)) (jsShl (b : Int) s) = toI32 ((p ||| b * m : Nat) : Int) := by
  have hb : b < 4294967296 := by
    have hm1 : 1 ≤ m := hm ▸ Nat.one_le_two_pow
    nlinarith
  rw [show jsShl (b : Int) s = toI32 ((b * m : Nat) : Int) by
        simp only [jsShl, toU32_natCast hb, hm]]
  exact jsOr_pattern hp hbm

theorem parseNumber_eight (b : Nat) (rest : List Nat) :
    parseNumber (b :: rest) 8 = ((b : Int), rest) := rfl

theorem parseNumber_thirtytwo (b0 b1 b2 b3 : Nat) (rest : List Nat)
    (h0 : b0 < 256) (h1 : b1 < 256) (h2 : b2 < 256) (h3 : b3 < 256) :
    parseNumber (b0 :: b1 :: b2 :: b3 :: rest) 32 =
      (toI32 ((leBytes [b0, b1, b2, b3] : Nat) : Int), rest) := by
  have hred : parseNumber (b0 :: b1 :: b2 :: b3 :: rest) 32 =
      (jsOr (jsOr (jsOr ((b0 : Nat) : Int) (jsShl ((b1 : Nat) : Int) 8))
        (jsShl ((b2 : Nat) : Int) 16)) (jsShl ((b3 : Nat) : Int) 24), rest) := rfl
  rw [hred, show ((b0 : Nat) : Int) = toI32 ((b0 : Nat) : Int) from
        (toI32_natCast_small (by omega)).symm,
    jsOr_step b1 8 256 (by omega) (by norm_num) (by omega),
    jsOr_step b2 16 65536 (Nat.or_lt_two_pow (n := 32) (by omega) (by omega))
      (by norm_num) (by omega),
    jsOr_step b3 24 16777216
      (Nat.or_lt_two_pow (n := 32)
        (Nat.or_lt_two_pow (n := 32) (by omega) (by omega)) (by omega))
      (by norm_num) (by omega),
    lor_mul_add (k := 8) b0 b1 (by norm_num) (by omega),
    lor_mul_add (k := 16) _ b2 (by norm_num) (by omega),
    lor_mul_add (k := 24) _ b3 (by norm_num) (by omega)]
  simp only [leBytes]
  norm_num
  ring_nf

theorem parseNumber_sixtyfour (b0 b1 b2 b3 b4 b5 b6 b7 : Nat) (rest : List Nat)
    (h0 : b0 < 256) (h1 : b1 < 256) (h2 : b2 < 256) (h3 : b3 < 256)
    (h4 : b4 < 256) (h5 : b5 < 256) (h6 : b6 < 256) (h7 : b7 < 256) :
    parseNumber (b0 :: b1 :: b2 :: b3 :: b4 :: b5 :: b6 :: b7 :: rest) 64 =
      (toI32 ((leBytes [b0, b1, b2, b3] ||| leBytes [b4, b5, b6, b7] : Nat) : Int),
        rest) := by
  have hred : parseNumber (b0 :: b1 :: b2 :: b3 :: b4 :: b5 :: b6 :: b7 :: rest) 64 =
      (jsOr (jsOr (jsOr (jsOr
        (jsOr (jsOr (jsOr ((b0 : Nat) : Int) (jsShl ((b1 : Nat) : Int) 8))
          (jsShl ((b2 : Nat) : Int) 16)) (jsShl ((b3 : Nat) : Int) 24))
        (jsShl ((b4 : Nat) : Int) 32)) (jsShl ((b5 : Nat) : Int) 40))
        (jsShl ((b6 : Nat) : Int) 48)) (jsShl ((b7 : Nat) : Int) 56), rest) := rfl
  rw [hred, show ((b0 : Nat) : Int) = toI32 ((b0 : Nat) : Int) from
        (toI32_natCast_small (by omega)).symm,
    jsOr_step b1 8 256 (by omega) (by norm_num) (by omega),
    jsOr_step b2 16 65536 (Nat.or_lt_two_pow (n := 32) (by omega) (by omega))
      (by norm_num) (by omega),
    jsOr_step b3 24 16777216
      (Nat.or_lt_two_pow (n := 32)
        (Nat.or_lt_two_pow (n := 32) (by omega) (by omega)) (by omega))
      (by norm_num) (by omega),
    lor_mul_add (k := 8) b0 b1 (by norm_num) (by omega),
    lor_mul_add (k := 16) _ b2 (by norm_num) (by omega),
    lor_mul_add (k := 24) _ b3 (by norm_num) (by omega),
    show jsShl ((b4 : Nat) : Int) 32 = toI32 ((b4 * 1 : Nat) : Int) by
      simp only [jsShl, toU32_natCast (show b4 < 4294967296 by omega)]; norm_num,
    show toI32 ((b4 * 1 : Nat) : Int) = toI32 ((b4 : Nat) : Int) by norm_num,
    jsOr_pattern (show b0 + b1 * 256 + b2 * 65536 + b3 * 16777216 < 4294967296 by
      omega) (show b4 < 4294967296 by omega),
    jsOr_step b5 40 256 (Nat.or_lt_two_pow (n := 32) (by omega) (by omega))
      (by norm_num) (by omega),
    jsOr_step b6 48 65536
      (Nat.or_lt_two_pow (n := 32)
        (Nat.or_lt_two_pow (n := 32) (by omega) (by omega)) (by omega))
      (by norm_num) (by omega),
    jsOr_step b7 56 16777216
      (Nat.or_lt_two_pow (n := 32)
        (Nat.or_lt_two_pow (n := 32)
          (Nat.or_lt_two_pow (n := 32) (by omega) (by omega)) (by omega))
        (by omega))
      (by norm_num) (by omega),
    Nat.lor_assoc, Nat.lor_assoc, Nat.lor_assoc,
    show b6 * 65536 ||| b7 * 16777216 = b6 * 65536 + b7 * 16777216 from
      lor_mul_add (k := 24) _ b7 (by norm_num) (by omega),
    show b6 * 65536 + b7 * 16777216 = (b6 + 256 * b7) * 65536 by ring,
    lor_mul_add (k := 16) (b5 * 256) (b6 + 256 * b7) (by norm_num) (by omega),
    show b5 * 256 + (b6 + 256 * b7) * 65536 = (b5 + b6 * 256 + b7 * 65536) * 256 by
      ring,
    lor_mul_add (k := 8) b4 (b5 + b6 * 256 + b7 * 65536) (by norm_num) (by omega),
    show b4 + (b5 + b6 * 256 + b7 * 65536) * 256 = leBytes [b4, b5, b6, b7] by
      simp [leBytes]; ring,
    show b0 + b1 * 256 + b2 * 65536 + b3 * 16777216 = leBytes [b0, b1, b2, b3] by
      simp [leBytes]; ring]

/-- A 20-byte digest beginning `0x00 0x1A 0xFF`, the remaining 17 bytes all
`0x11`. -/
def c4DigestBytes : List Nat := [0, 26, 255] ++ List.replicate 17 17

/-- An 8-byte access-token field whose only set byte is the fifth one, so its
unsigned little-endian value is `2 ^ 32`. -/
def c5TokenBytes : List Nat := [0, 0, 0, 0, 1, 0, 0, 0]

/-- C1: a buffer with a valid signature, a valid version, exactly one
complete well-formed entry and zero trailing bytes is claimed to decode into
a Document holding exactly that entry, the absorbed end-of-input attempt
discarding only the partially-constructed entry.  The code violates this:
the failed constructor never pushed anything, yet the catch in
`Vdf._parseBody` still pops the children array, discarding the completed
entry.  This theorem evaluates the code on such a buffer: the entry alone
parses completely (first conjunct), yet the document comes back with
`count = 1` and an empty entry sequence (second conjunct). -/
theorem c1_completed_entry_discarded :
    parseVdfGame 60 oneEntryBytes = some (oneEntryGame, []) ∧
    Vdf.parse [1] oneEntryDoc = .ok ⟨123094055, 1, 1, []⟩ :=
  ⟨rfl, rfl⟩

/-- C2: the externalized count field is claimed to equal the number of
externalized entries.  On the one-entry buffer the decode succeeds but
`jsonSync` reports `count = 1` with an empty `games` array, because the
body-loop catch popped the completed entry while keeping the incremented
counter. -/
theorem c2_count_games_mismatch :
    ∃ j : VdfJson, (Vdf.parse [1] oneEntryDoc).map Vdf.jsonSync = .ok j ∧
      j.count ≠ (j.games.length : Int) :=
  ⟨⟨123094055, 1, 1, []⟩, rfl, by decide⟩

/-- C3: the fixed-width readers are claimed to fail with an end-of-input
error, never silently reading a truncated field as zero.  The code instead
substitutes `Buffer.from([0])` for a `null` read and zero-fills missing
bytes: a 32-bit read on an empty buffer yields `0`, a 32-bit read on the
1-byte buffer `[0x05]` yields `5`, and an 8-bit raw-hex read on an empty
buffer yields the string `"0"`. -/
theorem c3_truncated_reads_not_rejected :
    parseNumber [] 32 = (0, []) ∧ parseNumber [5] 32 = (5, []) ∧
    parseRawBytes [] 8 = some ("0", []) :=
  ⟨rfl, rfl, rfl⟩

/-- C9: decoding a string node whose value bytes are `"hello"` followed by a
zero byte yields `"hello"` with the terminator consumed but not appended,
and decoding an int32 node whose value bytes are `FF FF FF FF` yields the
signed two's-complement value `-1` (node name `"k"` in both cases). -/
theorem c9_scalar_round_trip :
    parseVdfNode 3 [1, 107, 0, 104, 101, 108, 108, 111, 0] =
      some (.mk 1 (some "k") (.str "hello") 0 [], []) ∧
    parseVdfNode 3 [2, 107, 0, 255, 255, 255, 255] =
      some (.mk 2 (some "k") (.int (-1)) 0 [], []) :=
  ⟨rfl, rfl⟩

/-- C4 counterexample: the claim says every byte renders as exactly two
lowercase hex digits, making every 160-bit digest a 40-character string and
rendering a digest beginning `0x00 0x1A 0xFF` as a string beginning
`"001aff"`.  On `c4DigestBytes` the code produces a 39-character string
beginning `"01aff"`, because `Number.prototype.toString(16)` does not pad
`0x00` to two digits. -/
theorem c4_two_digit_rendering_false :
    parseRawBytes c4DigestBytes 160 =
      some ("01aff1111111111111111111111111111111111", []) ∧
    ("01aff1111111111111111111111111111111111" : String).length = 39 ∧
    ("01aff1111111111111111111111111111111111" : String).take 6 ≠ "001aff" := by
  refine ⟨rfl, rfl, by decide⟩

/-- C5 counterexample: the claim says a 64-bit read returns the unsigned
little-endian value of all 8 bytes.  On `c5TokenBytes` (unsigned LE value
`2 ^ 32`) the code returns `1`, because JS `<<` takes its shift count modulo
32 and the high four bytes alias onto the low 32 bits. -/
theorem c5_sixtyfour_bit_read_false :
    (parseNumber c5TokenBytes 64).1 = 1 ∧
    (leBytes c5TokenBytes : Int) = 4294967296 ∧
    (parseNumber c5TokenBytes 64).1 ≠ (leBytes c5TokenBytes : Int) := by
  refine ⟨rfl, by decide, by decide⟩

/-- C5 amended: for widths 8/32/64 with enough bytes, `parseNumber` composes
the bytes with JavaScript 32-bit bitwise operations: width 8 returns the
byte, width 32 returns the signed-32-bit (two's complement) reading of the
4-byte little-endian word, and width 64 returns the signed-32-bit reading of
the bitwise or of the low and high 4-byte little-endian words — not the
unsigned 64-bit little-endian value. -/
theorem c5_amended_js_bitwise_composition (l : List Nat) (hb : ∀ b ∈ l, b < 256)
    (hl : 8 ≤ l.length) :
    (parseNumber l 8).1 = ((l.headD 0 : Nat) : Int) ∧
    (parseNumber l 32).1 = toI32 ((leBytes (l.take 4) : Nat) : Int) ∧
    (parseNumber l 64).1 =
      toI32 ((leBytes (l.take 4) ||| leBytes ((l.drop 4).take 4) : Nat) : Int) := by
  rcases l with _ | ⟨b0, l⟩; · simp at hl
  rcases l with _ | ⟨b1, l⟩; · simp at hl
  rcases l with _ | ⟨b2, l⟩; · simp at hl
  rcases l with _ | ⟨b3, l⟩; · simp at hl
  rcases l with _ | ⟨b4, l⟩; · simp at hl
  rcases l with _ | ⟨b5, l⟩; · simp at hl
  rcases l with _ | ⟨b6, l⟩; · simp at hl
  rcases l with _ | ⟨b7, rest⟩; · simp at hl
  have h0 : b0 < 256 := hb b0 (by simp)
  have h1 : b1 < 256 := hb b1 (by simp)
  have h2 : b2 < 256 := hb b2 (by simp)
  have h3 : b3 < 256 := hb b3 (by simp)
  have h4 : b4 < 256 := hb b4 (by simp)
  have h5 : b5 < 256 := hb b5 (by simp)
  have h6 : b6 < 256 := hb b6 (by simp)
  have h7 : b7 < 256 := hb b7 (by simp)
  refine ⟨rfl, ?_, ?_⟩
  · rw [show (b0 :: b1 :: b2 :: b3 :: b4 :: b5 :: b6 :: b7 :: rest).take 4 =
        [b0, b1, b2, b3] from rfl,
      parseNumber_thirtytwo b0 b1 b2 b3 _ h0 h1 h2 h3]
  · rw [show (b0 :: b1 :: b2 :: b3 :: b4 :: b5 :: b6 :: b7 :: rest).take 4 =
        [b0, b1, b2, b3] from rfl,
      show ((b0 :: b1 :: b2 :: b3 :: b4 :: b5 :: b6 :: b7 :: rest).drop 4).take 4 =
        [b4, b5, b6, b7] from rfl,
      parseNumber_sixtyfour b0 b1 b2 b3 b4 b5 b6 b7 rest h0 h1 h2 h3 h4 h5 h6 h7]

/-- Witness for the amended C5 theorem at the concrete byte list
`[1, 2, 3, 4, 5, 6, 7, 8]`. -/
theorem c5_amended_witness :
    (parseNumber [1, 2, 3, 4, 5, 6, 7, 8] 8).1 =
      (([1, 2, 3, 4, 5, 6, 7, 8].headD 0 : Nat) : Int) ∧
    (parseNumber [1, 2, 3, 4, 5, 6, 7, 8] 32).1 =
      toI32 ((leBytes ([1, 2, 3, 4, 5, 6, 7, 8].take 4) : Nat) : Int) ∧
    (parseNumber [1, 2, 3, 4, 5, 6, 7, 8] 64).1 =
      toI32 ((leBytes ([1, 2, 3, 4, 5, 6, 7, 8].take 4) |||
        leBytes (([1, 2, 3, 4, 5, 6, 7, 8].drop 4).take 4) : Nat) : Int) :=
  c5_amended_js_bitwise_composition [1, 2, 3, 4, 5, 6, 7, 8] (by decide) (by decide)

/-- C8: for a node whose tag is float32 (3), pointer (4), wide-string (5),
color (6) or uint64 (7), decoding consumes exactly the one tag byte and the
null-terminated name, reads no value bytes (the remainder is exactly what
the name parse left), leaves the value unset and raises no failure. -/
theorem c8_unhandled_tags_read_no_value (fuel : Nat) (t : Nat) (rest : List Nat)
    (name : String) (rest2 : List Nat) (h3 : 3 ≤ t) (h7 : t ≤ 7)
    (hname : parseString rest = some (name, rest2)) :
    parseVdfNode (fuel + 1) (t :: rest) =
      some (.mk (t : Int) (some name) .undef 0 [], rest2) := by
  have ht : parseNumber (t :: rest) 8 = ((t : Int), rest) := parseNumber_eight t rest
  have e8 : ¬ ((t : Nat) : Int) = 8 := by exact_mod_cast (by omega : ¬ t = 8)
  have e0 : ¬ ((t : Nat) : Int) = 0 := by exact_mod_cast (by omega : ¬ t = 0)
  have e1 : ¬ ((t : Nat) : Int) = 1 := by exact_mod_cast (by omega : ¬ t = 1)
  have e2 : ¬ ((t : Nat) : Int) = 2 := by exact_mod_cast (by omega : ¬ t = 2)
  simp only [parseVdfNode, ht, if_neg e8, hname, if_neg e0, if_neg e1, if_neg e2]

/-- Witness for the C8 theorem: tag 3 with name bytes `"A\0"` and nothing
after them. -/
theorem c8_witness :
    parseVdfNode 1 [3, 65, 0] = some (.mk ((3 : Nat) : Int) (some "A") .undef 0 [], []) :=
  c8_unhandled_tags_read_no_value 0 3 [65, 0] "A" [] (by decide) (by decide) rfl

/-- Invariant of the shared child loop: on success, every node kept in the
final children array has a non-terminator tag (provided the accumulator
already satisfied this) and the counter moved exactly as the array length
did. -/
theorem parseVdfChildren_spec (fuel : Nat) :
    ∀ (l : List Nat) (count : Int) (acc : List VdfNode) (cnt : Int)
      (cs : List VdfNode) (rest : List Nat),
      parseVdfChildren fuel l count acc = some (cnt, cs, rest) →
      (∀ c ∈ acc, c.type ≠ 8) →
      (∀ c ∈ cs, c.type ≠ 8) ∧
        cnt - count = (cs.length : Int) - (acc.length : Int) := by
  induction fuel with
  | zero =>
      intro l count acc cnt cs rest h _
      simp [parseVdfChildren] at h
  | succ fuel ih =>
      intro l count acc cnt cs rest h hacc
      simp only [parseVdfChildren] at h
      cases hn : parseVdfNode fuel l with
      | none => rw [hn] at h; simp at h
      | some p =>
          obtain ⟨n, l2⟩ := p
          rw [hn] at h
          simp only at h
          by_cases ht : n.type ≠ 8
          · rw [if_pos ht] at h
            have hmem : ∀ c ∈ acc ++ [n], c.type ≠ 8 := by
              intro c hc
              rcases List.mem_append.mp hc with h1 | h1
              · exact hacc c h1
              · simp only [List.mem_singleton] at h1
                subst h1
                exact ht
            have hrec := ih l2 (count + 1) (acc ++ [n]) cnt cs rest h hmem
            refine ⟨hrec.1, ?_⟩
            have h2 := hrec.2
            simp only [List.length_append, List.length_singleton] at h2
            push_cast at h2 ⊢
            omega
          · rw [if_neg ht] at h
            simp only [Option.some.injEq, Prod.mk.injEq] at h
            obtain ⟨hcnt, hcs, hrest⟩ := h
            rw [List.dropLast_concat] at hcs
            subst hcs
            refine ⟨hacc, ?_⟩
            omega

/-- C6: a map node decoded from well-formed input never keeps the
terminator child: every retained child has a non-terminator tag (so the
terminator never appears among the externalized children, which are exactly
the object fields folded from the retained children), and the children
counter equals the number of retained (non-terminator) nodes. -/
theorem c6_map_terminator_excluded (fuel : Nat) (l : List Nat) (n : VdfNode)
    (rest : List Nat) (hp : parseVdfNode fuel l = some (n, rest))
    (hmap : n.type = 0) :
    (∀ c ∈ n.children, c.type ≠ 8) ∧ n.count = (n.children.length : Int) ∧
    n.value = Json.obj (VdfNode.valueFold [] n.children) := by
  cases fuel with
  | zero => simp [parseVdfNode] at hp
  | succ fuel =>
      simp only [parseVdfNode] at hp
      by_cases h8 : (parseNumber l 8).1 = 8
      · rw [if_pos h8] at hp
        simp only [Option.some.injEq, Prod.mk.injEq] at hp
        obtain ⟨hn, _⟩ := hp
        rw [← hn] at hmap
        rw [h8] at hmap
        simp [VdfNode.type] at hmap
      · rw [if_neg h8] at hp
        cases hs : parseString (parseNumber l 8).2 with
        | none => rw [hs] at hp; simp at hp
        | some p =>
            obtain ⟨name, l2⟩ := p
            rw [hs] at hp
            simp only at hp
            by_cases h0 : (parseNumber l 8).1 = 0
            · rw [if_pos h0] at hp
              cases hc : parseVdfChildren fuel l2 0 [] with
              | none => rw [hc] at hp; simp at hp
              | some q =>
                  obtain ⟨cnt, cs, l3⟩ := q
                  rw [hc] at hp
                  simp only [Option.some.injEq, Prod.mk.injEq] at hp
                  obtain ⟨hn, _⟩ := hp
                  have spec := parseVdfChildren_spec fuel l2 0 [] cnt cs l3 hc
                    (by intro c hc2; simp at hc2)
                  subst hn
                  refine ⟨spec.1, ?_, ?_⟩
                  · have h2 := spec.2
                    simp only [VdfNode.count, VdfNode.children]
                    simp at h2
                    omega
                  · simp only [VdfNode.children]
                    rw [show VdfNode.mk (parseNumber l 8).1 (some name) .undef cnt cs =
                          VdfNode.mk 0 (some name) .undef cnt cs by rw [h0]]
                    simp [VdfNode.value]
            · rw [if_neg h0] at hp
              by_cases ht1 : (parseNumber l 8).1 = 1
              · rw [if_pos ht1] at hp
                cases hs2 : parseString l2 with
                | none => rw [hs2] at hp; simp at hp
                | some p2 =>
                    obtain ⟨sv, l3⟩ := p2
                    rw [hs2] at hp
                    simp only [Option.some.injEq, Prod.mk.injEq] at hp
                    obtain ⟨hn, _⟩ := hp
                    rw [← hn] at hmap
                    simp only [VdfNode.type] at hmap
                    exact absurd hmap h0
              · rw [if_neg ht1] at hp
                by_cases ht2 : (parseNumber l 8).1 = 2
                · rw [if_pos ht2] at hp
                  simp only [Option.some.injEq, Prod.mk.injEq] at hp
                  obtain ⟨hn, _⟩ := hp
                  rw [← hn] at hmap
                  simp only [VdfNode.type] at hmap
                  exact absurd hmap h0
                · rw [if_neg ht2] at hp
                  simp only [Option.some.injEq, Prod.mk.injEq] at hp
                  obtain ⟨hn, _⟩ := hp
                  rw [← hn] at hmap
                  simp only [VdfNode.type] at hmap
                  exact absurd hmap h0

/-- Witness for the C6 theorem: a map node with one string child, whose
byte stream also carries the terminator node that ends the child list. -/
theorem c6_witness :
    (∀ c ∈ (VdfNode.mk 0 (some "") .undef 1
        [.mk 1 (some "A") (.str "B") 0 []]).children, c.type ≠ 8) ∧
    (VdfNode.mk 0 (some "") .undef 1 [.mk 1 (some "A") (.str "B") 0 []]).count =
      (((VdfNode.mk 0 (some "") .undef 1
        [.mk 1 (some "A") (.str "B") 0 []]).children.length : Nat) : Int) ∧
    (VdfNode.mk 0 (some "") .undef 1 [.mk 1 (some "A") (.str "B") 0 []]).value =
      Json.obj (VdfNode.valueFold []
        (VdfNode.mk 0 (some "") .undef 1
          [.mk 1 (some "A") (.str "B") 0 []]).children) :=
  c6_map_terminator_excluded 10 [0, 0, 1, 65, 0, 66, 0, 8]
    (.mk 0 (some "") .undef 1 [.mk 1 (some "A") (.str "B") 0 []]) [] rfl rfl

theorem toI32_ne_const {n : Nat} (hn : n < 4294967296) {c : Int} (hc0 : 0 ≤ c)
    (hc : c < 2147483648) (h : (n : Int) ≠ c) : toI32 (n : Int) ≠ c := by
  have h1 : ((n : Int) % 4294967296) = (n : Int) :=
    Int.emod_eq_of_lt (by positivity) (by exact_mod_cast hn)
  have hn2 : (n : Int) < 4294967296 := by exact_mod_cast hn
  simp only [toI32, h1]
  split
  · exact h
  · intro hx
    omega

/-- C7: a buffer whose first four bytes, read as a little-endian 32-bit
integer, differ from the accepted signature constant 123094055 makes the
decode fail with the invalid-signature error carrying the parsed sign, the
version check and entry loop never being reached; a valid signature followed
by a version outside the accepted set fails with the invalid-version error
before any entry decoding. -/
theorem c7_header_rejection (versions : List Int) (l : List Nat)
    (hb : ∀ b ∈ l, b < 256) (hl : 4 ≤ l.length) :
    (leBytes (l.take 4) ≠ 123094055 →
      Vdf.parse versions l =
        .error (.invalidSignature (toI32 ((leBytes (l.take 4) : Nat) : Int)))) ∧
    (leBytes (l.take 4) = 123094055 → 8 ≤ l.length →
      versions.contains (toI32 ((leBytes ((l.drop 4).take 4) : Nat) : Int)) =
        false →
      Vdf.parse versions l = .error .invalidVersion) := by
  rcases l with _ | ⟨b0, l⟩; · simp at hl
  rcases l with _ | ⟨b1, l⟩; · simp at hl
  rcases l with _ | ⟨b2, l⟩; · simp at hl
  rcases l with _ | ⟨b3, rest⟩; · simp at hl
  have h0 : b0 < 256 := hb b0 (by simp)
  have h1 : b1 < 256 := hb b1 (by simp)
  have h2 : b2 < 256 := hb b2 (by simp)
  have h3 : b3 < 256 := hb b3 (by simp)
  rw [show (b0 :: b1 :: b2 :: b3 :: rest).take 4 = [b0, b1, b2, b3] from rfl,
    show (b0 :: b1 :: b2 :: b3 :: rest).drop 4 = rest from rfl]
  have hsig := parseNumber_thirtytwo b0 b1 b2 b3 rest h0 h1 h2 h3
  have hS : leBytes [b0, b1, b2, b3] < 4294967296 := by simp [leBytes]; omega
  constructor
  · intro hne
    have hne2 : toI32 ((leBytes [b0, b1, b2, b3] : Nat) : Int) ≠ 123094055 :=
      toI32_ne_const hS (by norm_num) (by norm_num) (by exact_mod_cast hne)
    have hcont : ([VdfFileTypes_APPINFO].contains
        (toI32 ((leBytes [b0, b1, b2, b3] : Nat) : Int))) = false := by
      simp only [VdfFileTypes_APPINFO, List.contains_cons, List.contains_nil,
        Bool.or_false, beq_iff_eq]
      exact beq_eq_false_iff_ne.mpr hne2
    simp only [Vdf.parse]
    rw [hsig]
    rw [hcont]
    rw [if_pos rfl]
  · intro heq h8 hver
    rcases rest with _ | ⟨b4, rest⟩; · simp at h8
    rcases rest with _ | ⟨b5, rest⟩; · simp at h8
    rcases rest with _ | ⟨b6, rest⟩; · simp at h8
    rcases rest with _ | ⟨b7, rest2⟩; · simp at h8
    have h4 : b4 < 256 := hb b4 (by simp)
    have h5 : b5 < 256 := hb b5 (by simp)
    have h6 : b6 < 256 := hb b6 (by simp)
    have h7 : b7 < 256 := hb b7 (by simp)
    rw [show (b4 :: b5 :: b6 :: b7 :: rest2).take 4 = [b4, b5, b6, b7] from rfl]
      at hver
    have hver2 := parseNumber_thirtytwo b4 b5 b6 b7 rest2 h4 h5 h6 h7
    rw [heq, show toI32 ((123094055 : Nat) : Int) = (123094055 : Int) from by
      decide] at hsig
    have hcontT : ([VdfFileTypes_APPINFO].contains ((123094055 : Int))) = true := by
      decide
    simp only [Vdf.parse]
    rw [hsig]
    rw [hcontT]
    rw [if_neg (by decide)]
    rw [hver2]
    rw [hver]
    rw [if_pos rfl]

/-- Witness for the C7 theorem: the all-zero 4-byte buffer, whose signature
read is 0. -/
theorem c7_witness :
    (leBytes (([0, 0, 0, 0] : List Nat).take 4) ≠ 123094055 →
      Vdf.parse [1] [0, 0, 0, 0] =
        .error (.invalidSignature
          (toI32 ((leBytes (([0, 0, 0, 0] : List Nat).take 4) : Nat) : Int)))) ∧
    (leBytes (([0, 0, 0, 0] : List Nat).take 4) = 123094055 →
      8 ≤ ([0, 0, 0, 0] : List Nat).length →
      ([1] : List Int).contains
        (toI32 ((leBytes ((([0, 0, 0, 0] : List Nat).drop 4).take 4) : Nat) : Int)) =
        false →
      Vdf.parse [1] [0, 0, 0, 0] = .error .invalidVersion) :=
  c7_header_rejection [1] [0, 0, 0, 0] (by decide) (by decide)

theorem jsObjSet_mem {o : List (String × Json)} {k : String} {v : Json}
    (kv : String × Json) (h : kv ∈ o) (hne : kv.1 ≠ k) : kv ∈ jsObjSet o k v := by
  unfold jsObjSet
  split
  · exact List.mem_map.mpr ⟨kv, h, by rw [if_neg hne]⟩
  · exact List.mem_append_left _ h

theorem jsObjSet_keys {o : List (String × Json)} {k : String} {v : Json}
    (x : String) (hx : x ∈ (jsObjSet o k v).map Prod.fst) :
    x ∈ o.map Prod.fst ∨ x = k := by
  unfold jsObjSet at hx
  split at hx
  · rcases List.mem_map.mp hx with ⟨p, hp, hfst⟩
    rcases List.mem_map.mp hp with ⟨q, hq, hfq⟩
    by_cases hqk : q.1 = k
    · right
      rw [← hfst, ← hfq]
      rw [if_pos hqk]
    · left
      rw [← hfst, ← hfq]
      rw [if_neg hqk]
      exact List.mem_map_of_mem Prod.fst hq
  · rw [List.map_append] at hx
    rcases List.mem_append.mp hx with h1 | h1
    · left; exact h1
    · right; simpa using h1

theorem valueFold_mem (cs : List VdfNode) : ∀ (o : List (String × Json))
    (kv : String × Json), kv ∈ o → (∀ c ∈ cs, jsKey c.name ≠ kv.1) →
    kv ∈ VdfNode.valueFold o cs := by
  induction cs with
  | nil => intro o kv h _; simpa [VdfNode.valueFold] using h
  | cons c cs ih =>
      intro o kv h hne
      simp only [VdfNode.valueFold]
      exact ih _ kv (jsObjSet_mem kv h fun he => hne c (by simp) he.symm)
        fun d hd => hne d (by simp [hd])

theorem valueFold_keys (cs : List VdfNode) : ∀ (o : List (String × Json))
    (x : String), x ∈ (VdfNode.valueFold o cs).map Prod.fst →
    x ∈ o.map Prod.fst ∨ ∃ c ∈ cs, jsKey c.name = x := by
  induction cs with
  | nil => intro o x hx; left; simpa [VdfNode.valueFold] using hx
  | cons c cs ih =>
      intro o x hx
      simp only [VdfNode.valueFold] at hx
      rcases ih _ x hx with h1 | ⟨d, hd, he⟩
      · rcases jsObjSet_keys x h1 with h2 | h2
        · left; exact h2
        · right; exact ⟨c, by simp, h2.symm⟩
      · right; exact ⟨d, by simp [hd], he⟩

/-- C10: the externalized mapping of a decoded entry carries the declared
byte-size header field under its own key `dataSize`, together with `appId`,
`infoState`, `lastUpdated` and `changeNumber`, while the `accessToken` and
`sha` header fields are never emitted (their keys are absent whenever no
child node reuses those names; the hypothesis also keeps child names off the
emitted header keys so the header values are not overwritten). -/
theorem c10_json_shape (fuel : Nat) (l : List Nat) (g : VdfGame)
    (rest : List Nat) (hp : parseVdfGame fuel l = some (g, rest))
    (hnames : ∀ c ∈ g.children, jsKey c.name ∉
      ["appId", "dataSize", "infoState", "lastUpdated", "changeNumber",
       "accessToken", "sha"]) :
    (("appId", Json.num g.appId) ∈ g.json ∧
     ("dataSize", Json.num g.dataSize) ∈ g.json ∧
     ("infoState", Json.num g.infoState) ∈ g.json ∧
     ("lastUpdated", Json.num g.lastUpdated) ∈ g.json ∧
     ("changeNumber", Json.num g.changeNumber) ∈ g.json) ∧
    "accessToken" ∉ g.json.map Prod.fst ∧ "sha" ∉ g.json.map Prod.fst := by
  have hmem : ∀ kv : String × Json,
      kv ∈ ([("appId", Json.num g.appId), ("dataSize", Json.num g.dataSize),
        ("infoState", Json.num g.infoState),
        ("lastUpdated", Json.num g.lastUpdated),
        ("changeNumber", Json.num g.changeNumber)] : List (String × Json)) →
      (∀ c ∈ g.children, jsKey c.name ≠ kv.1) → kv ∈ g.json :=
    fun kv h hne => valueFold_mem g.children _ kv h hne
  refine ⟨⟨?_, ?_, ?_, ?_, ?_⟩, ?_, ?_⟩
  · exact hmem _ (by simp) fun c hc he => by
      have := hnames c hc; rw [he] at this; simp at this
  · exact hmem _ (by simp) fun c hc he => by
      have := hnames c hc; rw [he] at this; simp at this
  · exact hmem _ (by simp) fun c hc he => by
      have := hnames c hc; rw [he] at this; simp at this
  · exact hmem _ (by simp) fun c hc he => by
      have := hnames c hc; rw [he] at this; simp at this
  · exact hmem _ (by simp) fun c hc he => by
      have := hnames c hc; rw [he] at this; simp at this
  · intro hx
    rcases valueFold_keys g.children _ _ hx with h1 | ⟨c, hc, he⟩
    · simp at h1
    · have := hnames c hc; rw [he] at this; simp at this
  · intro hx
    rcases valueFold_keys g.children _ _ hx with h1 | ⟨c, hc, he⟩
    · simp at h1
    · have := hnames c hc; rw [he] at this; simp at this

/-- Witness for the C10 theorem at the concrete one-entry buffer. -/
theorem c10_witness :
    (("appId", Json.num oneEntryGame.appId) ∈ oneEntryGame.json ∧
     ("dataSize", Json.num oneEntryGame.dataSize) ∈ oneEntryGame.json ∧
     ("infoState", Json.num oneEntryGame.infoState) ∈ oneEntryGame.json ∧
     ("lastUpdated", Json.num oneEntryGame.lastUpdated) ∈ oneEntryGame.json ∧
     ("changeNumber", Json.num oneEntryGame.changeNumber) ∈ oneEntryGame.json) ∧
    "accessToken" ∉ oneEntryGame.json.map Prod.fst ∧
    "sha" ∉ oneEntryGame.json.map Prod.fst :=
  c10_json_shape 60 oneEntryBytes oneEntryGame [] rfl (by
    intro c hc
    simp only [oneEntryGame, VdfGame.children] at hc
    simp only [List.mem_singleton] at hc
    subst hc
    decide)

/-- Concatenation of the JS hex renderings of a byte list; the
specification-side description of what `parseRawBytes` produces. -/
def hexConcat : List Nat → String
  | [] => ""
  | b :: bs => jsToString16 b ++ hexConcat bs

theorem rawHexAux_spec (rem : Nat) : ∀ (i : Nat) (buffer : List Nat)
    (acc : String), i + rem ≤ buffer.length →
    rawHexAux buffer rem i acc =
      some (acc ++ hexConcat ((buffer.drop i).take rem)) := by
  induction rem with
  | zero =>
      intro i buffer acc _
      simp [rawHexAux, hexConcat]
  | succ rem ih =>
      intro i buffer acc hle
      have hi : i < buffer.length := by omega
      have hget : buffer.get? i = some (buffer.get ⟨i, hi⟩) := List.get?_eq_get hi
      have hdrop : buffer.drop i = buffer.get ⟨i, hi⟩ :: buffer.drop (i + 1) := by
        rw [List.drop_eq_get_cons hi]
      simp only [rawHexAux, hget]
      rw [ih (i + 1) buffer (acc ++ jsToString16 (buffer.get ⟨i, hi⟩)) (by omega),
        hdrop]
      simp [hexConcat, String.append_assoc]

/-- C4 amended: `parseRawBytes` renders each byte via JS
`Number.prototype.toString(16)` — minimal-length lowercase hexadecimal with
no zero padding — so bytes below `0x10` contribute one digit, not two: a
160-bit field with at least 20 bytes available renders as the concatenation
of the per-byte minimal hex strings (40 characters only when every byte is
at least `0x10`), and a digest beginning `0x00 0x1A 0xFF` renders beginning
`"01aff"`. -/
theorem c4_amended_unpadded_hex (l : List Nat) (h : 20 ≤ l.length) :
    parseRawBytes l 160 = some (hexConcat (l.take 20), l.drop 20) ∧
    jsToString16 0 = "0" ∧ jsToString16 26 = "1a" ∧ jsToString16 255 = "ff" := by
  refine ⟨?_, rfl, rfl, rfl⟩
  have hne : l ≠ [] := by
    intro e
    rw [e] at h
    simp at h
  simp only [parseRawBytes, streamRead, if_neg hne, Option.getD_some]
  rw [show (160 : Nat) / 8 = 20 from rfl,
    rawHexAux_spec 20 0 (l.take 20) "" (by simp; omega)]
  simp [List.take_take]

/-- Witness for the amended C4 theorem at the concrete digest bytes. -/
theorem c4_amended_witness :
    parseRawBytes c4DigestBytes 160 =
      some (hexConcat (c4DigestBytes.take 20), c4DigestBytes.drop 20) ∧
    jsToString16 0 = "0" ∧ jsToString16 26 = "1a" ∧ jsToString16 255 = "ff" :=
  c4_amended_unpadded_hex c4DigestBytes (by decide)

-- Scratch sanity checks (removed later)
example : parseVdfGame 60 oneEntryBytes = some (oneEntryGame, []) := by rfl
example : Vdf.parse [1] oneEntryDoc = .ok ⟨123094055, 1, 1, []⟩ := by rfl
example : parseVdfNode 10 [0, 0, 1, 65, 0, 66, 0, 8] =
    some (.mk 0 (some "") .undef 1 [.mk 1 (some "A") (.str "B") 0 []], []) := by rfl
example : parseNumber [39, 68, 86, 7] 32 = (123094055, []) := by decide
example : parseNumber [255, 255, 255, 255] 32 = (-1, []) := by decide
example : parseNumber [] 32 = (0, []) := by decide
example : parseNumber [5] 32 = (5, []) := by decide
example : parseNumber [0, 0, 0, 0, 1, 0, 0, 0] 64 = (1, []) := by decide
example : parseString [104, 101, 108, 108, 111, 0, 7] = some ("hello", [7]) := by decide
example : parseString [] = none := by decide
example : parseRawBytes [0, 26, 255] 24 = some ("01aff", []) := by decide
example : parseRawBytes [] 8 = some ("0", []) := by decide
example : parseRawBytes [] 16 = none := by decide
